import Mathlib

/-!
Verification of the positional-indexing helpers of
`src/dicts_and_dataframes.py` and of the markdown-cleanup script
`src/cleanupmd.py`, as a shallow embedding in Lean 4.

The Python dict is modelled as an association list in insertion order
(`Dict K V := List (K × V)`); iterating the dict yields its keys, `.values()`
its values and `.items()` its pairs, exactly as in CPython.  `itertools.islice`
validates its arguments eagerly (negative or non-integer bounds raise
`ValueError`, a non-positive step raises `ValueError`) and then yields the
elements at positions `start, start+step, …` below `stop`; consuming such an
iterator with `next()` yields its first element or raises `StopIteration`.
Python exception classes are modelled by the enumeration `PyErr`, and a Python
object that may appear as a slice bound or selector by `PyObj`
(`None`, `int`, or a representative non-integer object, `str`).
-/

namespace DictsAndDataframes

/-- Kinds of Python exceptions that the modelled code can raise. -/
inductive PyErr where
  | valueError
  | typeError
  | indexError
  | stopIteration
  deriving DecidableEq

/-- a Python object usable as a slice bound or selector: `None`, an `int`, or
a representative object that is neither (`str`). -/
inductive PyObj where
  | none
  | int (i : Int)
  | str (s : String)
  deriving DecidableEq

/-- a Python `slice` object; its components may be arbitrary objects
(`slice('x')` is constructible, validation happens only inside `islice`). -/
structure PySlice where
  mk ::
  start : PyObj
  stop : PyObj
  step : PyObj
  deriving DecidableEq

/-- an argument that is dispatched on `isinstance(_, slice)`: either a plain
object or a `slice`. -/
inductive Sel where
  | obj (o : PyObj)
  | sl (s : PySlice)
  deriving DecidableEq

/-- Validation of the `start` argument of `itertools.islice`: `None` means 0;
a negative or non-integer value raises `ValueError`. -/
def isliceStart : PyObj → Except PyErr Nat
  | PyObj.none => Except.ok 0
  | PyObj.int i => if i < 0 then Except.error PyErr.valueError else Except.ok i.toNat
  | PyObj.str _ => Except.error PyErr.valueError

/-- Validation of the `stop` argument of `itertools.islice`: `None` means
unbounded; a negative or non-integer value raises `ValueError`. -/
def isliceStop : PyObj → Except PyErr (Option Nat)
  | PyObj.none => Except.ok Option.none
  | PyObj.int i => if i < 0 then Except.error PyErr.valueError else Except.ok (some i.toNat)
  | PyObj.str _ => Except.error PyErr.valueError

/-- Validation of the `step` argument of `itertools.islice`: `None` means 1;
a step that is not a positive integer raises `ValueError`. -/
def isliceStep : PyObj → Except PyErr Nat
  | PyObj.none => Except.ok 1
  | PyObj.int i => if i ≤ 0 then Except.error PyErr.valueError else Except.ok i.toNat
  | PyObj.str _ => Except.error PyErr.valueError

/-- fuelled stride: keep the head, skip the next `st - 1` elements, repeat.
The fuel only serves structural termination; `xs.length` fuel is always
enough because each step consumes at least one element. -/
def strideTakeFuel : Nat → List α → Nat → List α
  | 0, _, _ => []
  | _ + 1, [], _ => []
  | fuel + 1, x :: rest, st => x :: strideTakeFuel fuel (rest.drop (st - 1)) st

/-- elements of `xs` at positions `0, st, 2·st, …` (the order in which a
stepped `islice` yields them once the leading `start` elements are dropped). -/
def strideTake (xs : List α) (st : Nat) : List α :=
  strideTakeFuel xs.length xs st

/-- Truncation of the iterable at the validated `stop` bound (`none` =
unbounded). -/
def isliceTake (xs : List α) : Option Nat → List α
  | Option.none => xs
  | some b => xs.take b

/-- Model of `itertools.islice(xs, start, stop, step)`, fully consumed:
arguments are validated eagerly in positional order and the result is the
list of elements the iterator would yield. -/
def islice (xs : List α) (start stop step : PyObj) : Except PyErr (List α) :=
  match isliceStart start with
  | Except.error e => Except.error e
  | Except.ok a =>
    match isliceStop stop with
    | Except.error e => Except.error e
    | Except.ok b =>
      match isliceStep step with
      | Except.error e => Except.error e
      | Except.ok st => Except.ok (strideTake ((isliceTake xs b).drop a) st)

/-- a Python dict, modelled as its entries in insertion order. -/
abbrev Dict (K V : Type) := List (K × V)

/-- Iterating a dict yields its keys (`list(d)` / `d.keys()`). -/
def dictKeys (m : Dict K V) : List K := m.map Prod.fst

/-- the `d.values()` view, in insertion order. -/
def dictValues (m : Dict K V) : List V := m.map Prod.snd

/-- the `d.items()` view, in insertion order. -/
def dictItems (m : Dict K V) : List (K × V) := m

/-- Model of `del d[k]`: the entry with key `k` disappears, the relative
order of the remaining entries is preserved (keys of a dict are unique, so
filtering out every entry with key `k` removes exactly that entry). -/
def delitem [DecidableEq K] (m : Dict K V) (k : K) : Dict K V :=
  m.filter (fun kv => kv.fst ≠ k)

/-- Model of `_dict_view_islice(iterable, start, stop, step)`: when `start`
is a `slice` object its components are used and the `stop`/`step` arguments
are ignored, otherwise a slice is formed from the three arguments; the
result is handed to `islice`. -/
def dict_view_islice (xs : List α) (start : Sel) (stop step : PyObj) :
    Except PyErr (List α) :=
  match start with
  | Sel.sl s => islice xs s.start s.stop s.step
  | Sel.obj o => islice xs o stop step

/-- Model of `keys_iloc(self, start, stop, step)` (iterates the dict itself,
which yields keys). -/
def keys_iloc (m : Dict K V) (start : Sel) (stop step : PyObj) :
    Except PyErr (List K) :=
  dict_view_islice (dictKeys m) start stop step

/-- Model of `values_iloc(self, start, stop, step)`. -/
def values_iloc (m : Dict K V) (start : Sel) (stop step : PyObj) :
    Except PyErr (List V) :=
  dict_view_islice (dictValues m) start stop step

/-- Model of `items_iloc(self, start, stop, step)`. -/
def items_iloc (m : Dict K V) (start : Sel) (stop step : PyObj) :
    Except PyErr (List (K × V)) :=
  dict_view_islice (dictItems m) start stop step

/-- Model of calling `next()` on the (already validated) iterator returned by
an `islice`-based helper: the first yielded element, `StopIteration` if the
iterator is exhausted, and any validation error propagates unchanged because
it was raised before `next` was ever called. -/
def pyNext : Except PyErr (List α) → Except PyErr α
  | Except.error e => Except.error e
  | Except.ok [] => Except.error PyErr.stopIteration
  | Except.ok (x :: _) => Except.ok x

/-- the spec's `key_at(m, index)`, i.e. `next(keys_iloc(m, index))`. -/
def key_at (m : Dict K V) (i : Int) : Except PyErr K :=
  pyNext (keys_iloc m (Sel.obj (PyObj.int i)) PyObj.none PyObj.none)

/-- the spec's `value_at(m, index)`, i.e. `next(values_iloc(m, index))`. -/
def value_at (m : Dict K V) (i : Int) : Except PyErr V :=
  pyNext (values_iloc m (Sel.obj (PyObj.int i)) PyObj.none PyObj.none)

/-- the spec's `pair_at(m, index)`, i.e. `next(items_iloc(m, index))`. -/
def pair_at (m : Dict K V) (i : Int) : Except PyErr (K × V) :=
  pyNext (items_iloc m (Sel.obj (PyObj.int i)) PyObj.none PyObj.none)

/-- Model of `IlocIndexer.__getitem__`: an `int` selector `i` becomes
`slice(i, i+1)`, a `slice` is used as is, and any other object `o` becomes
`slice(o)` (that is, `slice(None, o, None)`); the resulting bounds go to
`islice` over the wrapped view `self.obj()` (here: the view's list `xs`). -/
def IlocIndexer.getitem (xs : List α) (sel : Sel) : Except PyErr (List α) :=
  match sel with
  | Sel.obj (PyObj.int i) => islice xs (PyObj.int i) (PyObj.int (i + 1)) PyObj.none
  | Sel.sl s => islice xs s.start s.stop s.step
  | Sel.obj o => islice xs PyObj.none o PyObj.none

/-- the notebook's sample dict `odict = {'a': 'A', 'b': 'B', 'c': 'C', 'd': 'D'}`. -/
def odict : Dict Char Char := [('a', 'A'), ('b', 'B'), ('c', 'C'), ('d', 'D')]

/-- State-passing form of `keys_iloc`: the translated Python body only builds
a slice object and hands the dict view to `islice`, which reads the view's
iterator; no statement of the source assigns to or mutates the dict, so the
mapping component of the result is the argument itself. -/
def keys_iloc_st (m : Dict K V) (start : Sel) (stop step : PyObj) :
    Except PyErr (List K) × Dict K V :=
  (keys_iloc m start stop step, m)

/-- State-passing form of `values_iloc` (no statement mutates the dict). -/
def values_iloc_st (m : Dict K V) (start : Sel) (stop step : PyObj) :
    Except PyErr (List V) × Dict K V :=
  (values_iloc m start stop step, m)

/-- State-passing form of `items_iloc` (no statement mutates the dict). -/
def items_iloc_st (m : Dict K V) (start : Sel) (stop step : PyObj) :
    Except PyErr (List (K × V)) × Dict K V :=
  (items_iloc m start stop step, m)

/-- State-passing form of `d.keys.iloc[sel]`, i.e. `IlocIndexer.__getitem__`
over the keys view (no statement mutates the dict). -/
def iloc_keys_st (m : Dict K V) (sel : Sel) :
    Except PyErr (List K) × Dict K V :=
  (IlocIndexer.getitem (dictKeys m) sel, m)

end DictsAndDataframes

namespace Cleanupmd

/-- fuelled model of Python `str.replace(pat, rep)` on character lists: scan
left to right, replace each non-overlapping occurrence of `pat` and continue
after the replacement. The fuel only serves structural termination; `s.length`
fuel is always enough because each step consumes at least one character of
`s` (the empty-pattern guard keeps the skip positive). -/
def replaceAllFuel (pat rep : List Char) : Nat → List Char → List Char
  | 0, s => s
  | fuel + 1, s =>
    match s with
    | [] => []
    | c :: rest =>
      if pat.isPrefixOf s && !pat.isEmpty then
        rep ++ replaceAllFuel pat rep fuel (s.drop pat.length)
      else
        c :: replaceAllFuel pat rep fuel rest

/-- Model of Python `s.replace(pat, rep)` (all the patterns the script uses
are non-empty, for which this scan is exactly CPython's behaviour). -/
def replaceAll (pat rep s : List Char) : List Char :=
  replaceAllFuel pat rep s.length s

/-- Accumulator loop of `splitlines`: `cur` holds the current line reversed. -/
def splitlinesGo (cur : List Char) : List Char → List (List Char)
  | [] => [cur.reverse]
  | c :: rest =>
    if c = '\n' then
      cur.reverse :: (if rest.isEmpty then [] else splitlinesGo [] rest)
    else
      splitlinesGo (c :: cur) rest

/-- Model of Python `str.splitlines()` for LF-terminated text (the script's
replacement patterns likewise only treat LF): split at each newline, with a
trailing newline not producing a trailing empty line, and `[]` for the empty
string. -/
def splitlines (s : List Char) : List (List Char) :=
  if s.isEmpty then [] else splitlinesGo [] s

/-- Model of Python `'\n'.join(lines)`. -/
def joinLines : List (List Char) → List Char
  | [] => []
  | [l] => l
  | l :: rest => l ++ '\n' :: joinLines rest

/-- the comment marker the script filters on (`l.startswith('<!--')`). -/
def commentStart : List Char := ("<!--").toList

/-- Boolean check that `pat` occurs as a contiguous run somewhere in `s`. -/
def containsSeq (pat : List Char) : List Char → Bool
  | [] => pat.isEmpty
  | c :: rest => pat.isPrefixOf (c :: rest) || containsSeq pat rest

/-- Model of the body of `cleanupmd.main`: three sequential `str.replace`
passes over the whole text, then drop every line that starts with the
comment marker, then join the remaining lines with newlines (the result is
what gets written back over the file). -/
def cleanupmd_main (s : List Char) : List Char :=
  joinLines
    (((splitlines
        (replaceAll ("\n\n\n```").toList ("\n\n```").toList
          (replaceAll ("\n\n\n").toList ("\n\n").toList
            (replaceAll ("```\n\n\n").toList ("```\n\n").toList s)))).filter
      (fun l => !(commentStart.isPrefixOf l))))

end Cleanupmd

namespace DictsAndDataframes

example : key_at odict 3 = Except.ok 'd' := rfl
example : value_at odict 3 = Except.ok 'D' := rfl
example : pair_at odict 3 = Except.ok ('d', 'D') := rfl
example : items_iloc odict (Sel.obj (PyObj.int 0)) (PyObj.int 4) (PyObj.int 2) =
    Except.ok [('a', 'A'), ('c', 'C')] := rfl
example : items_iloc odict (Sel.sl (PySlice.mk (PyObj.int 0) (PyObj.int 4) (PyObj.int 2)))
    PyObj.none PyObj.none = Except.ok [('a', 'A'), ('c', 'C')] := rfl
example : IlocIndexer.getitem (dictKeys odict) (Sel.obj (PyObj.int 0)) =
    Except.ok ['a'] := rfl
example : IlocIndexer.getitem (dictKeys odict)
    (Sel.sl (PySlice.mk (PyObj.int 2) (PyObj.int 4) PyObj.none)) =
    Except.ok ['c', 'd'] := rfl
example : key_at odict (-1) = Except.error PyErr.valueError := rfl
example : key_at odict 4 = Except.error PyErr.stopIteration := rfl
example : keys_iloc odict (Sel.obj (PyObj.int 0)) (PyObj.int 4) (PyObj.int 0) =
    Except.error PyErr.valueError := rfl
example : IlocIndexer.getitem (dictKeys odict) (Sel.obj (PyObj.str "x")) =
    Except.error PyErr.valueError := rfl
example : IlocIndexer.getitem (dictKeys odict) (Sel.obj PyObj.none) =
    Except.ok ['a', 'b', 'c', 'd'] := rfl
example : key_at (delitem odict 'b') 1 = Except.ok 'c' := rfl

theorem strideTakeFuel_one (f : Nat) (xs : List α) (h : xs.length ≤ f) :
    strideTakeFuel f xs 1 = xs := by
  induction f generalizing xs with
  | zero =>
    have hxs : xs = [] := List.length_eq_zero.mp (Nat.le_zero.mp h)
    subst hxs
    rfl
  | succ f ih =>
    cases xs with
    | nil => rfl
    | cons x rest =>
      have hr : rest.length ≤ f := by
        simp only [List.length_cons] at h
        omega
      simp only [strideTakeFuel]
      rw [show (1 - 1 : Nat) = 0 from rfl, List.drop_zero, ih rest hr]

theorem strideTake_one (xs : List α) : strideTake xs 1 = xs :=
  strideTakeFuel_one xs.length xs le_rfl

theorem isliceStart_nonneg (i : Int) (h : 0 ≤ i) :
    isliceStart (PyObj.int i) = Except.ok i.toNat := by
  simp only [isliceStart]
  rw [if_neg (by omega)]

theorem islice_int_neg (xs : List α) (i : Int) (h : i < 0) (b c : PyObj) :
    islice xs (PyObj.int i) b c = Except.error PyErr.valueError := by
  simp only [islice, isliceStart]
  rw [if_pos h]

theorem islice_int_none_none (xs : List α) (i : Int) (h : 0 ≤ i) :
    islice xs (PyObj.int i) PyObj.none PyObj.none = Except.ok (xs.drop i.toNat) := by
  simp only [islice, isliceStart_nonneg i h, isliceStop, isliceStep, isliceTake]
  rw [strideTake_one]

theorem islice_none_all (xs : List α) :
    islice xs PyObj.none PyObj.none PyObj.none = Except.ok xs := by
  show Except.ok (strideTake (xs.drop 0) 1) = Except.ok xs
  rw [List.drop_zero, strideTake_one]

theorem single_pos (xs : List α) (n : Nat) (h : n < xs.length) :
    pyNext (dict_view_islice xs (Sel.obj (PyObj.int (n : Int))) PyObj.none PyObj.none) =
      Except.ok (xs.get ⟨n, h⟩) := by
  show pyNext (islice xs (PyObj.int (n : Int)) PyObj.none PyObj.none) = _
  rw [islice_int_none_none xs (n : Int) (by omega)]
  rw [show ((n : Int)).toNat = n from by omega]
  rw [List.drop_eq_getElem_cons h]
  simp [pyNext]

theorem single_ge (xs : List α) (i : Int) (h0 : 0 ≤ i) (h : xs.length ≤ i.toNat) :
    pyNext (dict_view_islice xs (Sel.obj (PyObj.int i)) PyObj.none PyObj.none) =
      Except.error PyErr.stopIteration := by
  show pyNext (islice xs (PyObj.int i) PyObj.none PyObj.none) = _
  rw [islice_int_none_none xs i h0, List.drop_eq_nil_of_le h]
  rfl

theorem single_neg (xs : List α) (i : Int) (h : i < 0) :
    pyNext (dict_view_islice xs (Sel.obj (PyObj.int i)) PyObj.none PyObj.none) =
      Except.error PyErr.valueError := by
  show pyNext (islice xs (PyObj.int i) PyObj.none PyObj.none) = _
  rw [islice_int_neg xs i h]
  rfl

theorem iloc_int_ge (xs : List α) (i : Int) (h0 : 0 ≤ i) (h : xs.length ≤ i.toNat) :
    pyNext (IlocIndexer.getitem xs (Sel.obj (PyObj.int i))) =
      Except.error PyErr.stopIteration := by
  show pyNext (islice xs (PyObj.int i) (PyObj.int (i + 1)) PyObj.none) = _
  have hstop : isliceStop (PyObj.int (i + 1)) = Except.ok (some (i + 1).toNat) := by
    simp only [isliceStop]
    rw [if_neg (by omega)]
  simp only [islice, isliceStart_nonneg i h0, hstop, isliceStep, isliceTake]
  rw [strideTake_one, List.drop_eq_nil_of_le (by rw [List.length_take]; omega)]
  rfl

theorem iloc_int_neg (xs : List α) (i : Int) (h : i < 0) :
    IlocIndexer.getitem xs (Sel.obj (PyObj.int i)) = Except.error PyErr.valueError := by
  show islice xs (PyObj.int i) (PyObj.int (i + 1)) PyObj.none = _
  exact islice_int_neg xs i h _ _

theorem islice_step_zero (xs : List α) (a b : PyObj) :
    islice xs a b (PyObj.int 0) = Except.error PyErr.valueError := by
  have hstep : isliceStep (PyObj.int 0) = Except.error PyErr.valueError := rfl
  unfold islice
  cases ha : isliceStart a with
  | error e =>
    cases a with
    | none => simp [isliceStart] at ha
    | int i =>
      simp only [isliceStart] at ha
      split at ha
      · cases ha
        rfl
      · cases ha
    | str s =>
      simp only [isliceStart] at ha
      cases ha
      rfl
  | ok n =>
    cases hb : isliceStop b with
    | error e =>
      cases b with
      | none => simp [isliceStop] at hb
      | int j =>
        simp only [isliceStop] at hb
        split at hb
        · cases hb
          rfl
        · cases hb
      | str s =>
        simp only [isliceStop] at hb
        cases hb
        rfl
    | ok m => rw [hstep]

theorem map_range_single (xs : List α) :
    (List.range xs.length).map
        (fun (i : Nat) =>
          pyNext (dict_view_islice xs (Sel.obj (PyObj.int (i : Int))) PyObj.none PyObj.none)) =
      xs.map Except.ok := by
  apply List.ext_get
  · simp
  · intro n h1 h2
    have hn : n < xs.length := by simpa using h1
    simp only [List.get_map, List.get_range]
    exact single_pos xs n hn

/-- C1: positional reads are computed fresh against the mapping's current
contents, never a stale cache: with the mapping built from keys `a, b, c, d`
(any values), the key at ordinal 1 is `'b'` before deleting key `'b'`, and
after the deletion both `next(keys_iloc(m, 1))` and `m.keys.iloc[1]` return
`'c'`, the mapping's actual current second key. -/
theorem keys_iloc_recomputed_after_delete {V : Type} (vA vB vC vD : V) :
    key_at [('a', vA), ('b', vB), ('c', vC), ('d', vD)] 1 = Except.ok 'b' ∧
    key_at (delitem [('a', vA), ('b', vB), ('c', vC), ('d', vD)] 'b') 1 = Except.ok 'c' ∧
    pyNext (IlocIndexer.getitem
        (dictKeys (delitem [('a', vA), ('b', vB), ('c', vC), ('d', vD)] 'b'))
        (Sel.obj (PyObj.int 1))) = Except.ok 'c' :=
  ⟨rfl, rfl, rfl⟩

/-- C2: round-trip between positional access and iteration order: for every
ordered mapping `m`, the list of `key_at(m, i)` for `i` in `0..len(m)-1`
equals `list(m.keys())` (each entry yielded successfully), and likewise for
`value_at` against `list(m.values())` and `pair_at` against `list(m.items())`. -/
theorem positional_roundtrip {K V : Type} (m : Dict K V) :
    (List.range m.length).map (fun (i : Nat) => key_at m (i : Int)) =
        (dictKeys m).map Except.ok ∧
    (List.range m.length).map (fun (i : Nat) => value_at m (i : Int)) =
        (dictValues m).map Except.ok ∧
    (List.range m.length).map (fun (i : Nat) => pair_at m (i : Int)) =
        (dictItems m).map Except.ok := by
  refine ⟨?_, ?_, ?_⟩
  · have h := map_range_single (dictKeys m)
    simpa [key_at, keys_iloc, dictKeys] using h
  · have h := map_range_single (dictValues m)
    simpa [value_at, values_iloc, dictValues] using h
  · have h := map_range_single (dictItems m)
    simpa [pair_at, items_iloc, dictItems] using h

/-- C3 counterexample: on the 4-entry sample mapping, `key_at(m, -1)` does not
return `'d'`; the negative index is rejected by `islice` with a
`ValueError`-kind error. -/
theorem negative_index_counterexample :
    key_at odict (-1) = Except.error PyErr.valueError ∧
    ¬ key_at odict (-1) = Except.ok 'd' := by
  refine ⟨rfl, ?_⟩
  rw [show key_at odict (-1) = Except.error PyErr.valueError from rfl]
  simp

/-- C3 (amended): negative single-index positional access does not address
from the end; for every ordered mapping and every negative integer index,
`key_at`/`value_at`/`pair_at` and `IlocIndexer.__getitem__` with that `int`
all fail with a `ValueError`-kind error, because `itertools.islice` rejects
negative bounds. -/
theorem negative_index_value_error {K V : Type} (m : Dict K V) (i : Int) (h : i < 0) :
    key_at m i = Except.error PyErr.valueError ∧
    value_at m i = Except.error PyErr.valueError ∧
    pair_at m i = Except.error PyErr.valueError ∧
    IlocIndexer.getitem (dictKeys m) (Sel.obj (PyObj.int i)) =
      Except.error PyErr.valueError :=
  ⟨single_neg (dictKeys m) i h, single_neg (dictValues m) i h,
    single_neg (dictItems m) i h, iloc_int_neg (dictKeys m) i h⟩

/-- C3 witness: the amended statement instantiated at the sample mapping and
index `-1`. -/
theorem negative_index_value_error_witness :
    key_at odict (-1) = Except.error PyErr.valueError ∧
    value_at odict (-1) = Except.error PyErr.valueError ∧
    pair_at odict (-1) = Except.error PyErr.valueError ∧
    IlocIndexer.getitem (dictKeys odict) (Sel.obj (PyObj.int (-1))) =
      Except.error PyErr.valueError :=
  negative_index_value_error odict (-1) (by decide)

/-- C4 counterexample: for the 4-entry sample mapping, `key_at(m, 4)` fails
with `StopIteration` (the exhausted-iterator error, not an `IndexError`-kind
error) and `key_at(m, -5)` fails with `ValueError` (islice's rejection of a
negative bound, not an `IndexError`-kind error). -/
theorem out_of_bounds_counterexample :
    key_at odict 4 = Except.error PyErr.stopIteration ∧
    key_at odict (-5) = Except.error PyErr.valueError ∧
    PyErr.stopIteration ≠ PyErr.indexError ∧
    PyErr.valueError ≠ PyErr.indexError :=
  ⟨rfl, rfl, by decide, by decide⟩

/-- C4 (amended): single-position access does fail for every integer index
outside `[0, size)`, but not with an `IndexError`-kind error: an index at or
beyond `size` leaves `next()` on an exhausted iterator, a `StopIteration`-kind
error, and any negative index (in particular those below `-size`) is rejected
by `islice` with a `ValueError`-kind error. -/
theorem out_of_bounds_errors {K V : Type} (m : Dict K V) (i : Int) :
    (0 ≤ i → m.length ≤ i.toNat →
      key_at m i = Except.error PyErr.stopIteration ∧
      value_at m i = Except.error PyErr.stopIteration ∧
      pair_at m i = Except.error PyErr.stopIteration ∧
      pyNext (IlocIndexer.getitem (dictKeys m) (Sel.obj (PyObj.int i))) =
        Except.error PyErr.stopIteration) ∧
    (i < 0 →
      key_at m i = Except.error PyErr.valueError ∧
      value_at m i = Except.error PyErr.valueError ∧
      pair_at m i = Except.error PyErr.valueError) := by
  constructor
  · intro h0 h
    have hk : (dictKeys m).length ≤ i.toNat := by simpa [dictKeys] using h
    have hv : (dictValues m).length ≤ i.toNat := by simpa [dictValues] using h
    have hi : (dictItems m).length ≤ i.toNat := by simpa [dictItems] using h
    exact ⟨single_ge (dictKeys m) i h0 hk, single_ge (dictValues m) i h0 hv,
      single_ge (dictItems m) i h0 hi, iloc_int_ge (dictKeys m) i h0 hk⟩
  · intro h
    exact ⟨single_neg (dictKeys m) i h, single_neg (dictValues m) i h,
      single_neg (dictItems m) i h⟩

/-- C4 witness: the amended statement instantiated at the sample mapping, at
index 4 for the `StopIteration` half and at index `-5` for the `ValueError`
half. -/
theorem out_of_bounds_errors_witness :
    (key_at odict 4 = Except.error PyErr.stopIteration ∧
      value_at odict 4 = Except.error PyErr.stopIteration ∧
      pair_at odict 4 = Except.error PyErr.stopIteration ∧
      pyNext (IlocIndexer.getitem (dictKeys odict) (Sel.obj (PyObj.int 4))) =
        Except.error PyErr.stopIteration) ∧
    (key_at odict (-5) = Except.error PyErr.valueError ∧
      value_at odict (-5) = Except.error PyErr.valueError ∧
      pair_at odict (-5) = Except.error PyErr.valueError) :=
  ⟨(out_of_bounds_errors odict 4).1 (by decide) (by decide),
    (out_of_bounds_errors odict (-5)).2 (by decide)⟩

/-- C5 counterexample: a string selector does not produce a `TypeError`-kind
error: `m.keys.iloc['x']` and `keys_iloc(m, 'x')` both fail with a
`ValueError`-kind error (the selector is stuffed into `slice('x')` and
`islice` rejects the non-integer bound), and the non-integer selector `None`
produces no error at all — it yields every key. -/
theorem non_int_selector_counterexample :
    IlocIndexer.getitem (dictKeys odict) (Sel.obj (PyObj.str "x")) =
      Except.error PyErr.valueError ∧
    keys_iloc odict (Sel.obj (PyObj.str "x")) PyObj.none PyObj.none =
      Except.error PyErr.valueError ∧
    IlocIndexer.getitem (dictKeys odict) (Sel.obj PyObj.none) =
      Except.ok ['a', 'b', 'c', 'd'] ∧
    PyErr.valueError ≠ PyErr.typeError :=
  ⟨rfl, rfl, rfl, by decide⟩

/-- C5 (amended): a selector that is neither an integer nor a slice is used
as `slice(obj)`, i.e. as a stop bound: the selector `None` succeeds and
yields the whole key sequence, while any other non-integer selector (modelled
by a string) fails with a `ValueError`-kind error, not a `TypeError`-kind
one; the `*_iloc` functions reject a string start the same way. -/
theorem non_int_selector_behaviour {K V : Type} (m : Dict K V) (s : String) :
    IlocIndexer.getitem (dictKeys m) (Sel.obj PyObj.none) = Except.ok (dictKeys m) ∧
    IlocIndexer.getitem (dictKeys m) (Sel.obj (PyObj.str s)) =
      Except.error PyErr.valueError ∧
    keys_iloc m (Sel.obj (PyObj.str s)) PyObj.none PyObj.none =
      Except.error PyErr.valueError ∧
    values_iloc m (Sel.obj (PyObj.str s)) PyObj.none PyObj.none =
      Except.error PyErr.valueError ∧
    items_iloc m (Sel.obj (PyObj.str s)) PyObj.none PyObj.none =
      Except.error PyErr.valueError :=
  ⟨islice_none_all (dictKeys m), rfl, rfl, rfl, rfl⟩

/-- C6: a range request with step zero fails with a `ValueError`-kind error,
whatever the mapping, the other bounds, and whichever of the three views is
addressed; in particular `keys_iloc(m, 0, 4, 0)` and the slice form with step
0 fail that way. -/
theorem zero_step_value_error {K V : Type} (m : Dict K V) (a b : PyObj) :
    keys_iloc m (Sel.obj a) b (PyObj.int 0) = Except.error PyErr.valueError ∧
    values_iloc m (Sel.obj a) b (PyObj.int 0) = Except.error PyErr.valueError ∧
    items_iloc m (Sel.obj a) b (PyObj.int 0) = Except.error PyErr.valueError ∧
    keys_iloc m (Sel.sl (PySlice.mk a b (PyObj.int 0))) PyObj.none PyObj.none =
      Except.error PyErr.valueError ∧
    keys_iloc m (Sel.obj (PyObj.int 0)) (PyObj.int 4) (PyObj.int 0) =
      Except.error PyErr.valueError :=
  ⟨islice_step_zero (dictKeys m) a b, islice_step_zero (dictValues m) a b,
    islice_step_zero (dictItems m) a b, islice_step_zero (dictKeys m) a b,
    islice_step_zero (dictKeys m) (PyObj.int 0) (PyObj.int 4)⟩

/-- C7: on the mapping built by inserting keys `a, b, c, d` with values
`A, B, C, D` in that order, single-position access at ordinal 3 returns the
fourth entry: `key_at(m, 3) = 'd'`, `value_at(m, 3) = 'D'`,
`pair_at(m, 3) = ('d', 'D')`. -/
theorem ordinal_three_access :
    key_at odict 3 = Except.ok 'd' ∧
    value_at odict 3 = Except.ok 'D' ∧
    pair_at odict 3 = Except.ok ('d', 'D') :=
  ⟨rfl, rfl, rfl⟩

/-- C9: every positional read is pure with respect to the mapping: in the
state-passing embedding of `keys_iloc`/`values_iloc`/`items_iloc` and of
`IlocIndexer.__getitem__` over the keys view, the mapping that comes out is
exactly the mapping that went in, for every selector. -/
theorem positional_reads_pure {K V : Type} (m : Dict K V)
    (start sel : Sel) (b c : PyObj) :
    (keys_iloc_st m start b c).2 = m ∧
    (values_iloc_st m start b c).2 = m ∧
    (items_iloc_st m start b c).2 = m ∧
    (iloc_keys_st m sel).2 = m :=
  ⟨rfl, rfl, rfl, rfl⟩

/-- C10: passing a slice object as the first argument of the `*_iloc`
functions is interchangeable with passing its start/stop/step components as
the three positional arguments (the explicit stop/step arguments are ignored
when a slice is supplied). -/
theorem slice_overload_equivalence {K V : Type} (m : Dict K V) (s : PySlice)
    (b c : PyObj) :
    keys_iloc m (Sel.sl s) b c = keys_iloc m (Sel.obj s.start) s.stop s.step ∧
    values_iloc m (Sel.sl s) b c = values_iloc m (Sel.obj s.start) s.stop s.step ∧
    items_iloc m (Sel.sl s) b c = items_iloc m (Sel.obj s.start) s.stop s.step :=
  ⟨rfl, rfl, rfl⟩

end DictsAndDataframes

namespace Cleanupmd

theorem splitlinesGo_mem_no_nl (s : List Char) :
    ∀ (cur : List Char), '\n' ∉ cur → ∀ l ∈ splitlinesGo cur s, '\n' ∉ l := by
  induction s with
  | nil =>
    intro cur hcur l hl
    simp only [splitlinesGo, List.mem_singleton] at hl
    subst hl
    simpa using hcur
  | cons c rest ih =>
    intro cur hcur l hl
    simp only [splitlinesGo] at hl
    by_cases hc : c = '\n'
    · rw [if_pos hc] at hl
      rcases List.mem_cons.mp hl with h1 | h1
      · subst h1
        simpa using hcur
      · by_cases hr : rest.isEmpty
        · rw [if_pos hr] at h1
          simp at h1
        · rw [if_neg hr] at h1
          exact ih [] (by simp) l h1
    · rw [if_neg hc] at hl
      refine ih (c :: cur) ?_ l hl
      intro hmem
      rcases List.mem_cons.mp hmem with h1 | h1
      · exact hc h1.symm
      · exact hcur h1

theorem splitlines_mem_no_nl (s : List Char) : ∀ l ∈ splitlines s, '\n' ∉ l := by
  intro l hl
  unfold splitlines at hl
  by_cases h : s.isEmpty
  · rw [if_pos h] at hl
    simp at hl
  · rw [if_neg h] at hl
    exact splitlinesGo_mem_no_nl s [] (by simp) l hl

theorem splitlinesGo_append (p : List Char) :
    (∀ c ∈ p, c ≠ '\n') →
      ∀ (cur s : List Char), splitlinesGo cur (p ++ s) = splitlinesGo (p.reverse ++ cur) s := by
  induction p with
  | nil =>
    intro _ cur s
    simp
  | cons a p ih =>
    intro hp cur s
    have ha : a ≠ '\n' := hp a (List.mem_cons_self a p)
    rw [List.cons_append]
    simp only [splitlinesGo]
    rw [if_neg ha, ih (fun c hc => hp c (List.mem_cons_of_mem a hc)) (a :: cur) s]
    congr 1
    simp

theorem splitlines_joinLines_mem (parts : List (List Char)) :
    (∀ p ∈ parts, '\n' ∉ p) →
      ∀ l ∈ splitlines (joinLines parts), l ∈ parts := by
  induction parts with
  | nil =>
    intro _ l hl
    simp [joinLines, splitlines] at hl
  | cons p rest ih =>
    intro hparts l hl
    have hpn : ∀ c ∈ p, c ≠ '\n' := by
      intro c hc hcn
      exact (hparts p (List.mem_cons_self p rest)) (hcn ▸ hc)
    cases rest with
    | nil =>
      simp only [joinLines] at hl
      unfold splitlines at hl
      by_cases hp0 : p.isEmpty
      · rw [if_pos hp0] at hl
        simp at hl
      · rw [if_neg hp0] at hl
        have hgo := splitlinesGo_append p hpn [] []
        rw [List.append_nil] at hgo
        rw [hgo] at hl
        simp only [splitlinesGo, List.append_nil, List.reverse_reverse,
          List.mem_singleton] at hl
        simp [hl]
    | cons q rest2 =>
      have hjoin : joinLines (p :: q :: rest2) = p ++ '\n' :: joinLines (q :: rest2) := rfl
      rw [hjoin] at hl
      unfold splitlines at hl
      rw [if_neg (by simp)] at hl
      rw [splitlinesGo_append p hpn [] ('\n' :: joinLines (q :: rest2))] at hl
      simp only [splitlinesGo] at hl
      rw [if_pos trivial] at hl
      rcases List.mem_cons.mp hl with h1 | h1
      · rw [List.append_nil, List.reverse_reverse] at h1
        simp [h1]
      · by_cases hj : (joinLines (q :: rest2)).isEmpty
        · rw [if_pos hj] at h1
          simp at h1
        · rw [if_neg hj] at h1
          have hrest : ∀ r ∈ q :: rest2, '\n' ∉ r :=
            fun r hr => hparts r (List.mem_cons_of_mem p hr)
          have hsplit : l ∈ splitlines (joinLines (q :: rest2)) := by
            unfold splitlines
            rw [if_neg hj]
            exact h1
          exact List.mem_cons_of_mem p (ih hrest l hsplit)

theorem no_comment_after_filter (d l : List Char)
    (hl : l ∈ splitlines
        (joinLines ((splitlines d).filter (fun p => !(commentStart.isPrefixOf p))))) :
    commentStart.isPrefixOf l = false := by
  have hmem : ∀ p ∈ (splitlines d).filter (fun p => !(commentStart.isPrefixOf p)),
      '\n' ∉ p := by
    intro p hp
    exact splitlines_mem_no_nl d p (List.mem_of_mem_filter hp)
  have hl2 := splitlines_joinLines_mem _ hmem l hl
  have hpred := List.of_mem_filter hl2
  simpa using hpred

/-- C8 counterexample: the markdown cleanup does not remove every blank-line
run: on the input `"a\n\n\n\n\nb"` (a line `a`, four blank lines, a line `b`)
the single left-to-right replacement pass leaves the output `"a\n\n\n\nb"`,
which still contains a run of three consecutive newlines, i.e. a run of two
consecutive blank lines. -/
theorem cleanup_blank_run_counterexample :
    cleanupmd_main (("a\n\n\n\n\nb").toList) = ("a\n\n\n\nb").toList ∧
    containsSeq (("\n\n\n").toList) (cleanupmd_main (("a\n\n\n\n\nb").toList)) = true := by
  exact ⟨rfl, rfl⟩

/-- C8 (amended): the markdown-cleanup transformation applies one
left-to-right replacement pass for each of its three blank-run patterns —
which shortens newline runs but can leave three consecutive newlines when the
input has four or more — and then drops exactly the lines that start with
`<!--`, joining the rest with newlines; consequently no line of the output
text starts with `<!--`. -/
theorem cleanup_output_has_no_comment_lines (s l : List Char)
    (hl : l ∈ splitlines (cleanupmd_main s)) :
    commentStart.isPrefixOf l = false := by
  unfold cleanupmd_main at hl
  exact no_comment_after_filter _ l hl

/-- C8 witness: the amended statement instantiated on the input
`"x\n<!-- hi"`, whose cleaned-up text consists of the single line `x`. -/
theorem cleanup_output_has_no_comment_lines_witness :
    ['x'] ∈ splitlines (cleanupmd_main (("x\n<!-- hi").toList)) ∧
    commentStart.isPrefixOf ['x'] = false :=
  ⟨by decide,
    cleanup_output_has_no_comment_lines (("x\n<!-- hi").toList) ['x'] (by decide)⟩

end Cleanupmd
